import Mathlib

/-!
# Verification of the fs-report core against its specification

This file gives a shallow embedding, in Lean 4, of the algorithmic core of the
TMflow security report generator (the `fs-report` package): the response cache
(`fs_report/data_cache.py`, v1.0.2.049), the paginated fetcher
(`fs_report/api_client.py`), and the declarative transform engine
(`fs_report/data_transformer.py`, v1.0.2.042), together with theorems settling
the specification's claims about them.

Modelling conventions:
* JSON records (Python `dict`) are association lists `Row` of string keys and
  `Value`s (string, integer, or null); `Row.get` is `dict.get` (first binding).
* The MD5 hash used for cache keys is idealised as the identity on the
  serialised parameter string (collision-freeness of the hash).
* `time.time()` timestamps, logging, progress bars and the on-disk progress
  file are omitted: no claim reads them.  The resume state parsed from the
  progress file is passed explicitly as an optional `(offset, results)` pair.
-/

inductive Value where
  | str (s : String)
  | int (n : Int)
  | null
deriving DecidableEq, Repr

/-- Python truthiness of a JSON value (`if rec.get('id')`). -/
def Value.truthy : Value → Bool
  | .str s => s ≠ ""
  | .int n => n ≠ 0
  | .null => false

/-- A JSON record: an association list from field names to values. -/
abbrev Row := List (String × Value)

/-- `dict.get`: the first binding of a key, if any. -/
def Row.get : Row → String → Option Value
  | [], _ => none
  | (k, v) :: rest, key => if k = key then some v else Row.get rest key

/-- Does the list start with the given pattern? -/
def listStartsWith : List Char → List Char → Bool
  | _, [] => true
  | [], _ :: _ => false
  | a :: as, b :: bs => a = b && listStartsWith as bs

/-- The text after the first occurrence of a (nonempty) pattern, if any. -/
def afterFirst (pat : List Char) : List Char → Option (List Char)
  | [] => none
  | c :: cs =>
      if listStartsWith (c :: cs) pat then some (cs.drop (pat.length - 1))
      else afterFirst pat cs

/-- Python's `str.split(pat)` for a nonempty pattern, over char lists.
Structural recursion on a fuel bounded by the string length, so that it
evaluates inside the kernel. -/
def splitOnCGo (pat : List Char) : Nat → List Char → List Char → List (List Char)
  | 0, _, cur => [cur.reverse]
  | fuel + 1, s, cur =>
      match s with
      | [] => [cur.reverse]
      | c :: cs =>
          if listStartsWith (c :: cs) pat then
            cur.reverse :: splitOnCGo pat fuel (cs.drop (pat.length - 1)) []
          else splitOnCGo pat fuel cs (c :: cur)

/-- Python `s.split(pat)` (as Lean strings). -/
def pySplit (s pat : String) : List String :=
  (splitOnCGo pat.data (s.data.length + 1) s.data []).map String.mk

/-- Python `pat in s` (substring containment). -/
def strContains (s pat : String) : Bool := (afterFirst pat.data s.data).isSome

/-- Python whitespace for `str.strip()`. -/
def isWS (c : Char) : Bool := c = ' ' || c = '\t' || c = '\n' || c = '\r'

/-- Python `s.strip()`. -/
def pyTrim (s : String) : String :=
  String.mk (((s.data.dropWhile isWS).reverse.dropWhile isWS).reverse)

/-- `re.search(pat ++ "([^;]+)", s)`: the text after the first occurrence of
`pat`, up to the next semicolon, when nonempty. -/
def searchCapture (pat s : String) : Option String :=
  match afterFirst pat.data s.data with
  | some rest =>
      let cap := rest.takeWhile (fun c => c ≠ ';')
      if cap = [] then none else some (String.mk cap)
  | none => none

/-- `s.split(pat)[1].split(";")[0].strip()` (guarded by `pat in s` at uses). -/
def splitPart (s pat : String) : String :=
  match pySplit s pat with
  | _ :: r :: _ => pyTrim (String.mk (r.data.takeWhile (fun c => c ≠ ';')))
  | _ => ""

/-! ## Response cache (`fs_report/data_cache.py`, v1.0.2.049) -/

/-- `QueryParams` (fs_report/models.py): `None`-valued fields model keys that
the cache-key construction removes from the params dict. -/
structure QueryParams where
  filter : Option String := none
  sort : Option String := none
  limit : Option Nat := none
  offset : Option Nat := none
  archived : Option Bool := none
deriving DecidableEq, Repr

structure QueryConfig where
  endpoint : String
  params : QueryParams
deriving DecidableEq, Repr

/-- `CacheEntry` from `data_cache.py` (the unread `timestamp` field omitted). -/
structure CacheEntry where
  data : List Row
  params : QueryParams
deriving DecidableEq, Repr

structure CacheKey where
  endpoint : String
  paramsHash : String
  fullParams : QueryParams
deriving DecidableEq, Repr

def jsonStr (s : String) : String := "\"" ++ s ++ "\""

/-- `json.dumps(params_dict, sort_keys=True)` for the params dict with `None`
values removed: keys in sorted order `archived, filter, limit, offset, sort`,
absent when `None`. -/
def paramsJson (p : QueryParams) : String :=
  let fields : List (Option String) :=
    [ p.archived.map (fun b => jsonStr "archived" ++ ": " ++ (if b then "true" else "false")),
      p.filter.map (fun f => jsonStr "filter" ++ ": " ++ jsonStr f),
      p.limit.map (fun n => jsonStr "limit" ++ ": " ++ toString n),
      p.offset.map (fun n => jsonStr "offset" ++ ": " ++ toString n),
      p.sort.map (fun s => jsonStr "sort" ++ ": " ++ jsonStr s) ]
  "\x7b" ++ String.intercalate ", " (fields.filterMap id) ++ "\x7d"

/-- `DataCache._generate_cache_key`: the MD5 of the serialised params is
idealised as the serialised string itself. -/
def generateCacheKey (query : QueryConfig) : CacheKey :=
  ⟨query.endpoint, paramsJson query.params, query.params⟩

/-- The `f"{endpoint}:{params_hash}"` cache id used by `get` and `put`. -/
def cacheIdOf (query : QueryConfig) : String :=
  (generateCacheKey query).endpoint ++ ":" ++ (generateCacheKey query).paramsHash

/-- The cache dict `self.cache`, as an association list. -/
abbrev Cache := List (String × CacheEntry)

def cacheFind : Cache → String → Option CacheEntry
  | [], _ => none
  | (k, e) :: rest, cid => if k = cid then some e else cacheFind rest cid

/-- `DataCache._extract_date_range`. -/
def extractDateRange (filterExpr : String) : Option (String × String) :=
  match searchCapture "detected>=" filterExpr, searchCapture "detected<=" filterExpr with
  | some a, some b => some (a, b)
  | _, _ => none

/-- `DataCache._is_subset_filter`, clause for clause: note that the first
guard returns `false` for an empty cached filter with a nonempty requested
filter, which makes the third branch (same condition, returning `true`)
unreachable, exactly as in the source. -/
def isSubsetFilter (cachedFilter requestedFilter : String) : Bool :=
  if cachedFilter = "" ∧ requestedFilter ≠ "" then false
  else if cachedFilter = requestedFilter then true
  else if cachedFilter = "" ∧ requestedFilter ≠ "" then true
  else if strContains cachedFilter "detected>=" ∧ strContains requestedFilter "detected>=" then
    match extractDateRange cachedFilter, extractDateRange requestedFilter with
    | some cachedDates, some requestedDates =>
        if cachedDates = requestedDates then
          requestedFilter.length > cachedFilter.length
        else false
    | _, _ => false
  else false

/-- `DataCache._can_reuse_data`. -/
def canReuseData (cachedParams requestedParams : QueryParams) : Bool :=
  if cachedParams = requestedParams then true
  else
    let cachedFilter := cachedParams.filter.getD ""
    let requestedFilter := requestedParams.filter.getD ""
    if isSubsetFilter cachedFilter requestedFilter then true else false

/-- `DataCache._matches_filter`: the `type==`, `status=in=`, `severity==`
clause checks, in source order; an early `return False` is a conjunction. -/
def matchesFilter (item : Row) (filterExpr : String) : Bool :=
  (if strContains filterExpr "type==" then
      Row.get item "type" = some (Value.str (splitPart filterExpr "type=="))
    else true)
  &&
  (if strContains filterExpr "status=in=" then
      let statusMatch := splitPart filterExpr "status=in="
      if listStartsWith statusMatch.data ['('] ∧
          listStartsWith statusMatch.data.reverse [')'] then
        let statuses := pySplit (String.mk (statusMatch.data.drop 1).dropLast) ","
        match Row.get item "status" with
        | some (Value.str s) => statuses.contains s
        | _ => false
      else true
    else true)
  &&
  (if strContains filterExpr "severity==" then
      Row.get item "severity" = some (Value.str (splitPart filterExpr "severity=="))
    else true)

/-- `DataCache._subset_data`. -/
def subsetData (data : List Row) (filterExpr : String) : List Row :=
  if filterExpr = "" then data
  else data.filter (fun item => matchesFilter item filterExpr)

/-- `DataCache.get`. -/
def DataCache.get (cache : Cache) (query : QueryConfig) : Option (List Row) :=
  let cacheKey := generateCacheKey query
  let cid := cacheKey.endpoint ++ ":" ++ cacheKey.paramsHash
  match cacheFind cache cid with
  | none => none
  | some cachedEntry =>
      let requestedParams := cacheKey.fullParams
      if canReuseData cachedEntry.params requestedParams then
        if cachedEntry.params = requestedParams then some cachedEntry.data
        else
          match requestedParams.filter with
          | some f => if f ≠ "" then some (subsetData cachedEntry.data f) else none
          | none => none
      else none

/-- `DataCache.put`: dict assignment `self.cache[cache_id] = entry`. -/
def DataCache.put (cache : Cache) (query : QueryConfig) (data : List Row) : Cache :=
  let cid := cacheIdOf query
  (cid, ⟨data, (generateCacheKey query).fullParams⟩) :: cache.filter (fun p => p.1 ≠ cid)

/-! ## Paginated fetcher (`fs_report/api_client.py`, `fetch_all_with_resume`)

The page fetch `fetch_data(page_query)` is abstracted as a function from the
page offset to either a page of records (`some page`) or a raised exception
(`none`); `random.uniform(0, 1)` is abstracted as a jitter stream indexed by
the number of failures so far, and `time.sleep` is recorded as the list of
slept delays.  The parsed progress file is the optional `resume` pair. -/

/-- `rec.get('id')` filtered by Python truthiness
(`{rec.get('id') for rec in page if rec.get('id')}`). -/
def truthyId (r : Row) : Option Value :=
  match Row.get r "id" with
  | some v => if v.truthy then some v else none
  | none => none

/-- The identifiers present (and truthy) in a list of records. -/
def pageIds (rs : List Row) : List Value := rs.filterMap truthyId

/-- The two duplicate-detection breaks of `fetch_all_with_resume`:
`duplicates = page_ids & existing_ids; if duplicates: break` and the
follow-up `if len(page_ids) > 0 and len(duplicates) == len(page_ids): break`
(the sets are modelled by deduplicated lists). -/
def dupStop (page existing : List Row) : Bool :=
  let pids := (pageIds page).dedup
  let eids := (pageIds existing).dedup
  let duplicates := pids.filter (fun v => decide (v ∈ eids))
  if duplicates ≠ [] then true
  else if pids.length > 0 ∧ duplicates.length = pids.length then true
  else false

/-- The mutable locals of the `while True` loop. -/
structure FetchState where
  offset : Nat
  allResults : List Row
  consecutiveEmpty : Nat
  retryCount : Nat
  numFails : Nat
  delays : List ℚ
deriving Repr

/-- The outcome of `fetch_all_with_resume`: a normal return of the
accumulated records (with the backoff delays slept along the way), or an
exception propagating to the caller. -/
inductive FetchOutcome where
  | ok (records : List Row) (delays : List ℚ)
  | err (msg : String)
deriving DecidableEq, Repr

inductive StepRes where
  | done (out : FetchOutcome)
  | next (s : FetchState)

/-- One iteration of the `while True` loop of `fetch_all_with_resume`. -/
def fetchStep (fetch : Nat → Option (List Row)) (limit maxRetries : Nat)
    (jitter : Nat → ℚ) (s : FetchState) : StepRes :=
  match fetch s.offset with
  | none =>
      let wait : ℚ := 2 ^ (min s.retryCount 6) + jitter s.numFails
      let rc := s.retryCount + 1
      if rc > maxRetries then StepRes.done (.ok s.allResults (s.delays ++ [wait]))
      else StepRes.next { s with retryCount := rc, numFails := s.numFails + 1,
                                 delays := s.delays ++ [wait] }
  | some page =>
      let s := { s with retryCount := 0 }
      if page.isEmpty then
        let ce := s.consecutiveEmpty + 1
        if ce ≥ 3 then StepRes.done (.ok s.allResults s.delays)
        else StepRes.next { s with consecutiveEmpty := ce, offset := s.offset + limit }
      else
        let s := { s with consecutiveEmpty := 0 }
        if s.allResults ≠ [] ∧ dupStop page s.allResults then
          StepRes.done (.ok s.allResults s.delays)
        else StepRes.next { s with allResults := s.allResults ++ page,
                                   offset := s.offset + limit }

/-- The loop, on fuel (`none` = fuel exhausted before the loop stopped). -/
def fetchLoop (fetch : Nat → Option (List Row)) (limit maxRetries : Nat)
    (jitter : Nat → ℚ) : Nat → FetchState → Option FetchOutcome
  | 0, _ => none
  | fuel + 1, s =>
      match fetchStep fetch limit maxRetries jitter s with
      | StepRes.done out => some out
      | StepRes.next s2 => fetchLoop fetch limit maxRetries jitter fuel s2

/-- `limit = getattr(query.params, 'limit', 10000) or 10000`. -/
def limitOf (q : QueryConfig) : Nat :=
  match q.params.limit with
  | some n => if n = 0 then 10000 else n
  | none => 10000

/-- `APIClient.fetch_all_with_resume`: cache check, resume state, then the
pagination loop. -/
def fetchAllWithResume (cache : Cache) (query : QueryConfig)
    (resume : Option (Nat × List Row)) (fetch : Nat → Option (List Row))
    (jitter : Nat → ℚ) (maxRetries : Nat) (fuel : Nat) : Option FetchOutcome :=
  match DataCache.get cache query with
  | some cached => some (.ok cached [])
  | none =>
      let start := resume.getD (0, [])
      fetchLoop fetch (limitOf query) maxRetries jitter fuel
        ⟨start.1, start.2, 0, 0, 0, []⟩

/-- An honest paginated upstream: the page at an offset is the corresponding
slice of a fixed record list (empty past the end). -/
def sliceFetch (L : List Row) (lim : Nat) (k : Nat) : Option (List Row) :=
  some ((L.drop k).take lim)

/-- A sticky upstream that keeps returning the last nonempty page past the
true end (the behaviour the duplicate-ID stop protects against). -/
def stickyFetch (L : List Row) (lim : Nat) (k : Nat) : Option (List Row) :=
  let page := (L.drop k).take lim
  if page.isEmpty then some ((L.drop (((L.length - 1) / lim) * lim)).take lim)
  else some page

/-! ## Transform engine (`fs_report/data_transformer.py`, v1.0.2.042)

A pandas `DataFrame` is modelled as a column-name list plus a list of rows;
cell access is `Row.get` (`none` models a missing/NaN cell).  `sort_values`
is modelled by a deterministic comparison sort; pandas does not specify the
tie order of its default single-column `quicksort`, so no theorem below
relies on the tie order of this model (it is only applied to duplicate-free
key lists, where every correct sort agrees).  `pivot_table` cell values are
summed as
integers with `fillna(0)`/`fill_value=0` mapping missing cells to `0`;
non-numeric aggregation is outside the modelled scope.  `pd.merge` is
modelled without suffixing of overlapping non-key column names.  Of the step
variants only `sort`, `pivot` and `join` (the ones the claims are about) are
embedded; a step with none of them set falls through to "No valid transform
found → return df" as in `_apply_transform`. -/

structure DF where
  cols : List String
  rows : List Row
deriving DecidableEq, Repr

def emptyDF : DF := ⟨[], []⟩

/-- Column names in order of first appearance. -/
def firstDedup : List String → List String
  | [] => []
  | a :: rest => a :: (firstDedup rest).filter (fun b => decide (b ≠ a))

/-- `pd.DataFrame(records)`: columns are the union of the record keys. -/
def dfOfRecords (data : List Row) : DF :=
  ⟨firstDedup ((data.map (fun r => r.map Prod.fst)).flatten), data⟩

/-- `SortTransform` (fs_report/models.py). -/
structure SortTransform where
  sort : List String
  ascending : Bool := true
deriving DecidableEq, Repr

/-- `PivotTransform` (fs_report/models.py). -/
structure PivotTransform where
  index : String
  columns : String
  values : String
deriving DecidableEq, Repr

/-- `JoinTransform` (fs_report/models.py). -/
structure JoinTransform where
  right : String
  left_on : List String
  right_on : List String
  how : String := "left"
deriving DecidableEq, Repr

/-- The modelled slice of `Transform` (fs_report/models.py): optional fields,
dispatched in the source's priority order. -/
structure Transform where
  sort : Option SortTransform := none
  pivot : Option PivotTransform := none
  join : Option JoinTransform := none
deriving DecidableEq, Repr

/-- The `severity_order` mapping `{critical: 0, high: 1, medium: 2, low: 3}`
with `.map(...).fillna(99)`: unrecognised or missing values become 99. -/
def severityRank (v : Option Value) : Nat :=
  match v with
  | some (Value.str "critical") => 0
  | some (Value.str "high") => 1
  | some (Value.str "medium") => 2
  | some (Value.str "low") => 3
  | _ => 99

/-- A sort key component: the synthetic `_severity_order` integer column, or
a raw cell value. -/
inductive SKey where
  | num (n : Nat)
  | val (v : Option Value)
deriving DecidableEq, Repr

def Value.typeRank : Value → Nat
  | .null => 0
  | .int _ => 1
  | .str _ => 2

/-- A total comparison on cell values (same-type values compare naturally;
mixed types by kind, standing in for pandas' type coercion). -/
def Value.le : Value → Value → Bool
  | .null, .null => true
  | .int a, .int b => a ≤ b
  | .str a, .str b => a ≤ b
  | a, b => a.typeRank ≤ b.typeRank

def OValue.le : Option Value → Option Value → Bool
  | none, _ => true
  | some _, none => false
  | some a, some b => Value.le a b

def SKey.le : SKey → SKey → Bool
  | .num a, .num b => a ≤ b
  | .val a, .val b => OValue.le a b
  | .num _, .val _ => true
  | .val _, .num _ => false

/-- Lexicographic comparison of sort-key tuples. -/
def lexLe : List SKey → List SKey → Bool
  | [], _ => true
  | _ :: _, [] => false
  | a :: as, b :: bs =>
      if SKey.le a b then (if SKey.le b a then lexLe as bs else true) else false

/-- Strictly-less on keys, used to find the insertion point. -/
def keyLtB (le : κ → κ → Bool) (a b : κ) : Bool := le a b && !(le b a)

/-- Insert before the first element whose key is not strictly below `x`'s. -/
def insertStable (le : κ → κ → Bool) (key : α → κ) (x : α) : List α → List α
  | [] => [x]
  | y :: ys =>
      if keyLtB le (key y) (key x) then y :: insertStable le key x ys
      else x :: y :: ys

/-- An insertion sort by key, standing in for `sort_values` as one
deterministic refinement of it: pandas does not specify the tie order of the
default single-column `quicksort`, and no theorem relies on this model's tie
order. -/
def sortStable (le : κ → κ → Bool) (key : α → κ) : List α → List α
  | [] => []
  | x :: xs => insertStable le key x (sortStable le key xs)

/-- `DataTransformer._apply_sort`: validate the sort columns, substitute the
synthetic `_severity_order` rank for a `severity` sort column, and sort by
the resulting keys (the tie order of `sort_values` itself is unspecified by
pandas and not modelled). -/
def applySort (df : DF) (cfg : SortTransform) : Except String DF :=
  let missing := cfg.sort.filter (fun c => decide (c ∉ df.cols))
  if missing ≠ [] then
    Except.error ("Sort columns not found in data: " ++ String.intercalate ", " missing)
  else
    let cmp : List SKey → List SKey → Bool :=
      fun a b => if cfg.ascending then lexLe a b else lexLe b a
    if "severity" ∈ cfg.sort then
      let key : Row → List SKey := fun r =>
        cfg.sort.map (fun c =>
          if c = "severity" then SKey.num (severityRank (Row.get r "severity"))
          else SKey.val (Row.get r c))
      Except.ok ⟨df.cols, sortStable cmp key df.rows⟩
    else
      let key : Row → List SKey := fun r => cfg.sort.map (fun c => SKey.val (Row.get r c))
      Except.ok ⟨df.cols, sortStable cmp key df.rows⟩

/-- The name `pivot_table` gives the output column for a columns-key value. -/
def valueColName : Value → String
  | .str s => s
  | .int n => toString n
  | .null => ""

/-- A cell under `fillna(0)` / `fill_value = 0`, summed as an integer. -/
def valAsInt : Option Value → Int
  | some (.int n) => n
  | _ => 0

/-- The non-null values of a column (pivot keys: NaN group keys are dropped). -/
def keyVals (rows : List Row) (c : String) : List Value :=
  rows.filterMap (fun r =>
    match Row.get r c with
    | some Value.null => none
    | some v => some v
    | none => none)

/-- Distinct key values in sorted order (`pivot_table` sorts group keys). -/
def distinctSorted (vs : List Value) : List Value :=
  sortStable Value.le (fun v => v) vs.dedup

/-- `aggfunc="sum"` over the rows of one `(index, columns)` pair. -/
def pivotCell (rows : List Row) (cfg : PivotTransform) (iv cv : Value) : Int :=
  ((rows.filter (fun r =>
      decide (Row.get r cfg.index = some iv) && decide (Row.get r cfg.columns = some cv))).map
    (fun r => valAsInt (Row.get r cfg.values))).sum

/-- `reindex(columns=new_order)`: keep the named columns, in that order. -/
def reorderRow : List String → Row → Row
  | [], _ => []
  | c :: cs, r =>
      match Row.get r c with
      | some v => (c, v) :: reorderRow cs r
      | none => reorderRow cs r

/-- The distinct (sorted, non-null) values of the `columns` key. -/
def pivotColVals (df : DF) (cfg : PivotTransform) : List Value :=
  distinctSorted (keyVals df.rows cfg.columns)

/-- The distinct (sorted, non-null) values of the `index` key. -/
def pivotIdxVals (df : DF) (cfg : PivotTransform) : List Value :=
  distinctSorted (keyVals df.rows cfg.index)

/-- The pivot output columns before reordering: the reset index column
followed by one column per distinct columns-key value. -/
def pivotBaseCols (df : DF) (cfg : PivotTransform) : List String :=
  cfg.index :: (pivotColVals df cfg).map valueColName

/-- One pivot output row: the index value followed by the summed cell of
every columns-key value. -/
def pivotMkRow (df : DF) (cfg : PivotTransform) (iv : Value) : Row :=
  (cfg.index, iv) ::
    (pivotColVals df cfg).map
      (fun cv => (valueColName cv, Value.int (pivotCell df.rows cfg iv cv)))

/-- `severity_order = ["low", "medium", "high", "critical"]` of `_apply_pivot`. -/
def sevOrderL : List String := ["low", "medium", "high", "critical"]

/-- `present = [s for s in severity_order if s in cols]`. -/
def pivotPresent (df : DF) (cfg : PivotTransform) : List String :=
  sevOrderL.filter (fun s => decide (s ∈ pivotBaseCols df cfg))

/-- `others = [c for c in cols if c not in present and c != idx_col]`. -/
def pivotOthers (df : DF) (cfg : PivotTransform) : List String :=
  (pivotBaseCols df cfg).filter
    (fun c => decide (c ∉ pivotPresent df cfg) &&
      decide (c ≠ (pivotBaseCols df cfg).headD ""))

/-- `new_order = [idx_col] + present + others`. -/
def pivotNewOrder (df : DF) (cfg : PivotTransform) : List String :=
  (pivotBaseCols df cfg).headD "" :: (pivotPresent df cfg ++ pivotOthers df cfg)

/-- `DataTransformer._apply_pivot`: validate, pivot with summed cells and
zero fill (`pivot_table(aggfunc="sum", fill_value=0)`), reset the index,
then reorder severity-named columns into the fixed
`low, medium, high, critical` sequence followed by the others. -/
def applyPivot (df : DF) (cfg : PivotTransform) : Except String DF :=
  if [cfg.index, cfg.columns, cfg.values].filter (fun c => decide (c ∉ df.cols)) ≠ [] then
    Except.error ("Pivot columns not found in data: " ++
      String.intercalate ", "
        ([cfg.index, cfg.columns, cfg.values].filter (fun c => decide (c ∉ df.cols))))
  else
    Except.ok ⟨pivotNewOrder df cfg,
      (pivotIdxVals df cfg).map
        (fun iv => reorderRow (pivotNewOrder df cfg) (pivotMkRow df cfg iv))⟩

def lookupAux : List (String × List Row) → String → Option (List Row)
  | [], _ => none
  | (k, v) :: rest, name => if k = name then some v else lookupAux rest name

/-- All-null row segment standing for pandas NaN padding of unmatched rows. -/
def nullRow (cols : List String) : Row := cols.map (fun c => (c, Value.null))

/-- `pd.merge(df, right_df, left_on, right_on, how)` (no suffixing of
overlapping non-key column names). -/
def mergeDF (ldf rdf : DF) (lon ron : List String) (how : String) : DF :=
  let rmatches := fun (lr : Row) =>
    rdf.rows.filter (fun rr => decide (ron.map (Row.get rr) = lon.map (Row.get lr)))
  let lmatches := fun (rr : Row) =>
    ldf.rows.filter (fun lr => decide (ron.map (Row.get rr) = lon.map (Row.get lr)))
  let cols := ldf.cols ++ rdf.cols.filter (fun c => decide (c ∉ ldf.cols))
  let rows :=
    if how = "inner" then
      ldf.rows.flatMap (fun lr => (rmatches lr).map (fun rr => lr ++ rr))
    else if how = "right" then
      rdf.rows.flatMap (fun rr =>
        let ms := lmatches rr
        if ms.isEmpty then [nullRow ldf.cols ++ rr] else ms.map (fun lr => lr ++ rr))
    else if how = "outer" then
      (ldf.rows.flatMap (fun lr =>
        let ms := rmatches lr
        if ms.isEmpty then [lr ++ nullRow rdf.cols] else ms.map (fun rr => lr ++ rr))) ++
      ((rdf.rows.filter (fun rr => (lmatches rr).isEmpty)).map
        (fun rr => nullRow ldf.cols ++ rr))
    else
      ldf.rows.flatMap (fun lr =>
        let ms := rmatches lr
        if ms.isEmpty then [lr ++ nullRow rdf.cols] else ms.map (fun rr => lr ++ rr))
  ⟨cols, rows⟩

/-- The right-key resolution loop of `_apply_join`: a `parent.field` key is
extracted out of the `parent` column (the modelled flat values are never
nested mappings, so `x.get(nested_field) if isinstance(x, dict) else None`
yields a null column); a key that resolves neither way aborts the join with
`return df`, modelled as `none`. -/
def resolveRightCols (rdf : DF) : List String → Option DF
  | [] => some rdf
  | c :: rest =>
      if c ∈ rdf.cols then resolveRightCols rdf rest
      else if strContains c "." then
        let base := String.mk (c.data.takeWhile (fun ch => ch ≠ '.'))
        if base ∈ rdf.cols then
          resolveRightCols ⟨rdf.cols ++ [c], rdf.rows.map (fun r => r ++ [(c, Value.null)])⟩ rest
        else none
      else none

/-- `DataTransformer._apply_join`: every missing-dataset or missing-column
error path logs and returns the left DataFrame unchanged. -/
def applyJoin (df : DF) (cfg : JoinTransform) (additional : List (String × List Row)) :
    Except String DF :=
  match lookupAux additional cfg.right with
  | none => Except.ok df
  | some rightRecords =>
      let rightDf := dfOfRecords rightRecords
      if cfg.left_on.all (fun c => decide (c ∈ df.cols)) then
        match resolveRightCols rightDf cfg.right_on with
        | none => Except.ok df
        | some rightDf2 => Except.ok (mergeDF df rightDf2 cfg.left_on cfg.right_on cfg.how)
      else Except.ok df

/-- `DataTransformer._apply_transform`: dispatch (modelled variants only);
any raised step error is re-raised as `ValueError("Error applying transform")`. -/
def applyTransformStep (df : DF) (t : Transform) : Except String DF :=
  let res :=
    match t.sort with
    | some cfg => applySort df cfg
    | none =>
        match t.pivot with
        | some cfg => applyPivot df cfg
        | none => Except.ok df
  match res with
  | Except.ok out => Except.ok out
  | Except.error _ => Except.error "Error applying transform"

/-- The step loop of `DataTransformer.transform`: `join` steps are dispatched
directly (skipped with a warning when no auxiliary data is provided); other
steps go through `_apply_transform`; the first error aborts the pipeline. -/
def transformGo (additional : Option (List (String × List Row))) :
    DF → List Transform → Except String DF
  | df, [] => Except.ok df
  | df, t :: rest =>
      let step : Except String DF :=
        match t.join with
        | some jcfg =>
            match additional with
            | some ad => applyJoin df jcfg ad
            | none => Except.ok df
        | none => applyTransformStep df t
      match step with
      | Except.error e => Except.error e
      | Except.ok df2 => transformGo additional df2 rest

def renameCol (df : DF) (oldN newN : String) : DF :=
  ⟨df.cols.map (fun c => if c = oldN then newN else c),
   df.rows.map (fun r => r.map (fun p => if p.1 = oldN then (newN, p.2) else p))⟩

def dropCol (df : DF) (c0 : String) : DF :=
  ⟨df.cols.filter (fun c => decide (c ≠ c0)),
   df.rows.map (fun r => r.filter (fun p => decide (p.1 ≠ c0)))⟩

/-- The final `i_d`/`finding_count` cleanup at the end of `transform`. -/
def finalCleanup (df : DF) : DF :=
  if "i_d" ∈ df.cols then
    if "finding_count" ∈ df.cols then dropCol df "i_d"
    else renameCol df "i_d" "finding_count"
  else df

/-- `DataTransformer.transform`. -/
def DataTransformer.transform (data : List Row) (transforms : List Transform)
    (additional : Option (List (String × List Row))) : Except String DF :=
  if data.isEmpty then Except.ok emptyDF
  else
    match transformGo additional (dfOfRecords data) transforms with
    | Except.error e => Except.error e
    | Except.ok df => Except.ok (finalCleanup df)

/-! ### Concrete cache inputs used by counterexamples and witnesses -/

def cexF1 : String := "detected>=2025-01-01T00:00:00;detected<=2025-01-31T23:59:59"

def cexF2 : String := cexF1 ++ ";severity==critical"

def cexQ1 : QueryConfig := ⟨"/api/public/v0/findings", { filter := some cexF1 }⟩

def cexQ2 : QueryConfig := ⟨"/api/public/v0/findings", { filter := some cexF2 }⟩

def cexRecs : List Row := [[("id", Value.str "f-1"), ("severity", Value.str "critical")]]

def qNoFilter : QueryConfig := ⟨"/api/public/v0/findings", {}⟩

def qSevOnly : QueryConfig := ⟨"/api/public/v0/findings", { filter := some "severity==critical" }⟩

def qOffA : QueryConfig :=
  ⟨"/api/public/v0/findings", { filter := some "severity==critical", limit := some 100 }⟩

def qOffB : QueryConfig :=
  ⟨"/api/public/v0/findings",
    { filter := some "severity==critical", limit := some 100, offset := some 500 }⟩

def cexRowA : Row := [("id", Value.str "a"), ("severity", Value.str "high")]

def cexRowB : Row := [("id", Value.str "b"), ("severity", Value.str "critical")]

def cexQLim1 : QueryConfig := ⟨"/api/public/v0/findings", { limit := some 1 }⟩

/-- An upstream over the two-record set `{cexRowA, cexRowB}` whose second
page partially repeats the first. -/
def cexPages : Nat → Option (List Row) := fun k =>
  if k = 0 then some [cexRowA] else if k = 1 then some [cexRowA, cexRowB] else some []

def cexJoinData : List Row := [[("a", Value.int 1)], [("a", Value.int 2)]]

def cexJoinCfg : JoinTransform := ⟨"aux", ["missing_col"], ["k"], "left"⟩

def cexAux : List (String × List Row) :=
  [("aux", [[("k", Value.int 1), ("name", Value.str "p1")]])]

theorem pageIds_append (a b : List Row) : pageIds (a ++ b) = pageIds a ++ pageIds b := by
  simp [pageIds]

theorem dupStop_eq_false {page existing : List Row}
    (h : ∀ v ∈ pageIds page, v ∉ pageIds existing) :
    dupStop page existing = false := by
  have hfil :
      (pageIds page).dedup.filter (fun v => decide (v ∈ (pageIds existing).dedup)) = [] := by
    refine List.filter_eq_nil_iff.mpr ?_
    intro v hv
    have hv2 : v ∈ pageIds page := List.mem_dedup.mp hv
    simp only [decide_eq_true_eq, List.mem_dedup]
    exact h v hv2
  simp only [dupStop]
  simp [hfil]
  refine ⟨h, fun hp => ?_⟩
  obtain ⟨x, hx⟩ := List.exists_mem_of_ne_nil _ (List.length_pos.mp hp)
  exact ⟨x, List.mem_dedup.mp hx, h x (List.mem_dedup.mp hx)⟩

theorem dupStop_eq_true {page existing : List Row} (v : Value)
    (h1 : v ∈ pageIds page) (h2 : v ∈ pageIds existing) :
    dupStop page existing = true := by
  have hv : v ∈ (pageIds page).dedup.filter (fun v => decide (v ∈ (pageIds existing).dedup)) := by
    refine List.mem_filter.mpr ⟨List.mem_dedup.mpr h1, ?_⟩
    simp only [decide_eq_true_eq, List.mem_dedup]
    exact h2
  have hne := List.ne_nil_of_mem hv
  simp only [dupStop]
  simp [hne]
  exact Or.inl ⟨v, h1, h2⟩

theorem slice_ids_fresh {L : List Row} (hnd : (pageIds L).Nodup) (o lim : Nat) :
    ∀ v ∈ pageIds ((L.drop o).take lim), v ∉ pageIds (L.take o) := by
  intro v hv hmem
  have hsplit : pageIds L = pageIds (L.take o) ++ pageIds (L.drop o) := by
    rw [← pageIds_append, List.take_append_drop]
  rw [hsplit] at hnd
  rcases List.nodup_append.mp hnd with ⟨_, _, hdisj⟩
  have hsub : List.Sublist (pageIds ((L.drop o).take lim)) (pageIds (L.drop o)) :=
    (List.take_sublist lim (L.drop o)).filterMap truthyId
  exact hdisj hmem (hsub.mem hv)

theorem take_ne_nil {l : List Row} {n : Nat} (h : l ≠ []) (hn : 1 ≤ n) : l.take n ≠ [] := by
  cases l with
  | nil => exact absurd rfl h
  | cons a as =>
      cases n with
      | zero => omega
      | succ m => simp

theorem fetchLoop_slice (L : List Row) (lim maxR : Nat) (jitter : Nat → ℚ)
    (hnd : (pageIds L).Nodup) (hlim : 1 ≤ lim) :
    ∀ fuel o ce, L.length - o + (3 - ce) ≤ fuel → (o < L.length → ce = 0) → ce ≤ 2 →
      fetchLoop (sliceFetch L lim) lim maxR jitter fuel ⟨o, L.take o, ce, 0, 0, []⟩ =
        some (FetchOutcome.ok L []) := by
  intro fuel
  induction fuel with
  | zero =>
      intro o ce hfuel _ hce2
      omega
  | succ fuel ih =>
      intro o ce hfuel hce0 hce2
      by_cases ho : L.length ≤ o
      · have hdrop : L.drop o = [] := List.drop_eq_nil_of_le ho
        have htake : L.take o = L := List.take_of_length_le ho
        by_cases hce : ce + 1 ≥ 3
        · have hstep : fetchStep (sliceFetch L lim) lim maxR jitter ⟨o, L.take o, ce, 0, 0, []⟩ =
              StepRes.done (.ok (L.take o) []) := by
            simp [fetchStep, sliceFetch, hdrop, hce]
          rw [fetchLoop, hstep, htake]
        · have hstep : fetchStep (sliceFetch L lim) lim maxR jitter ⟨o, L.take o, ce, 0, 0, []⟩ =
              StepRes.next ⟨o + lim, L.take o, ce + 1, 0, 0, []⟩ := by
            simp [fetchStep, sliceFetch, hdrop, hce]
          rw [fetchLoop, hstep]
          have htake2 : L.take o = L.take (o + lim) := by
            rw [htake, List.take_of_length_le (le_trans ho (Nat.le_add_right o lim))]
          rw [htake2]
          exact ih (o + lim) (ce + 1) (by omega) (by omega) (by omega)
      · push_neg at ho
        have hce0' : ce = 0 := hce0 ho
        subst hce0'
        have hdropne : L.drop o ≠ [] := by
          intro hnil
          have := congrArg List.length hnil
          simp at this
          omega
        have hpagene : (L.drop o).take lim ≠ [] := take_ne_nil hdropne hlim
        have hdup : dupStop ((L.drop o).take lim) (L.take o) = false :=
          dupStop_eq_false (slice_ids_fresh hnd o lim)
        have hstep : fetchStep (sliceFetch L lim) lim maxR jitter ⟨o, L.take o, 0, 0, 0, []⟩ =
            StepRes.next ⟨o + lim, L.take o ++ (L.drop o).take lim, 0, 0, 0, []⟩ := by
          simp [fetchStep, sliceFetch, List.isEmpty_iff, hpagene, hdup]
        rw [fetchLoop, hstep, ← List.take_add]
        exact ih (o + lim) 0 (by omega) (fun _ => rfl) (by omega)

theorem fetchLoop_sticky (L : List Row) (lim maxR : Nat) (jitter : Nat → ℚ)
    (hnd : (pageIds L).Nodup) (hlim : 1 ≤ lim)
    (hids : ∀ r ∈ L, (truthyId r).isSome) (hL : L ≠ []) :
    ∀ fuel o ce, L.length - o + 1 ≤ fuel → (o < L.length → ce = 0) →
      fetchLoop (stickyFetch L lim) lim maxR jitter fuel ⟨o, L.take o, ce, 0, 0, []⟩ =
        some (FetchOutcome.ok L []) := by
  intro fuel
  induction fuel with
  | zero =>
      intro o ce hfuel _
      omega
  | succ fuel ih =>
      intro o ce hfuel hce0
      by_cases ho : L.length ≤ o
      · -- past the end: the sticky upstream repeats the last page, whose ids overlap
        have htake : L.take o = L := List.take_of_length_le ho
        have hdrop : L.drop o = [] := List.drop_eq_nil_of_le ho
        set m := (L.length - 1) / lim * lim with hm
        have hmlt : m < L.length := by
          have h1 : m ≤ L.length - 1 := Nat.div_mul_le_self (L.length - 1) lim
          have h2 : 1 ≤ L.length := List.length_pos.mpr hL
          omega
        have hdropm : L.drop m ≠ [] := by
          intro hnil
          have := congrArg List.length hnil
          simp at this
          omega
        have hpagene : (L.drop m).take lim ≠ [] := take_ne_nil hdropm hlim
        obtain ⟨r, hr⟩ := List.exists_mem_of_ne_nil _ hpagene
        have hrL : r ∈ L :=
          ((List.take_sublist lim (L.drop m)).trans (List.drop_sublist m L)).mem hr
        obtain ⟨v, hvr⟩ := Option.isSome_iff_exists.mp (hids r hrL)
        have hv1 : v ∈ pageIds ((L.drop m).take lim) :=
          List.mem_filterMap.mpr ⟨r, hr, hvr⟩
        have hv2 : v ∈ pageIds L := by
          have hsub : List.Sublist (pageIds ((L.drop m).take lim)) (pageIds L) :=
            ((List.take_sublist lim (L.drop m)).trans (List.drop_sublist m L)).filterMap truthyId
          exact hsub.mem hv1
        have hdup : dupStop ((L.drop m).take lim) L = true := dupStop_eq_true v hv1 hv2
        have hstep : fetchStep (stickyFetch L lim) lim maxR jitter ⟨o, L.take o, ce, 0, 0, []⟩ =
            StepRes.done (.ok L []) := by
          rw [htake]
          simp only [fetchStep, stickyFetch, hdrop]
          simp [List.isEmpty_iff, hpagene, hdup, hL, ← hm]
        rw [fetchLoop, hstep]
      · push_neg at ho
        have hce0' : ce = 0 := hce0 ho
        subst hce0'
        have hdropne : L.drop o ≠ [] := by
          intro hnil
          have := congrArg List.length hnil
          simp at this
          omega
        have hpagene : (L.drop o).take lim ≠ [] := take_ne_nil hdropne hlim
        have hdup : dupStop ((L.drop o).take lim) (L.take o) = false :=
          dupStop_eq_false (slice_ids_fresh hnd o lim)
        have hstep : fetchStep (stickyFetch L lim) lim maxR jitter ⟨o, L.take o, 0, 0, 0, []⟩ =
            StepRes.next ⟨o + lim, L.take o ++ (L.drop o).take lim, 0, 0, 0, []⟩ := by
          simp [fetchStep, stickyFetch, List.isEmpty_iff, hpagene, hdup]
        rw [fetchLoop, hstep, ← List.take_add]
        exact ih (o + lim) 0 (by omega) (fun _ => rfl)

/-- C2 (counterexample): over the finite upstream record set
`{cexRowA, cexRowB}` (ids `"a"`, `"b"`; true unique count 2) served as the
page function `cexPages` — page `[cexRowA]` at offset 0, page
`[cexRowA, cexRowB]` at offset 1 — `fetch_all_with_resume` stops at the
duplicate-ID overlap of the second page and returns a single record: the
accumulated count 1 differs from the true unique record count 2, refuting the
claimed count equality for arbitrary page functions. -/
theorem fetch_dup_undercount_cex :
    fetchAllWithResume [] cexQLim1 none cexPages (fun _ => 0) 8 10 =
      some (FetchOutcome.ok [cexRowA] []) ∧
    cexPages 0 = some [cexRowA] ∧ cexPages 1 = some [cexRowA, cexRowB] ∧
    (pageIds [cexRowA, cexRowB]).dedup.length = 2 ∧ [cexRowA].length = 1 := by
  refine ⟨by decide, by decide, by decide, by decide, rfl⟩

/-- C2 (amended): for an upstream that pages out a fixed finite record list
`L` whose (present, truthy) identifiers are distinct, `fetch_all_with_resume`
terminates within the explicit fuel bound `L.length + 4` and accumulates
exactly `L` — both when pages past the end are empty (stopping after 3
consecutive empty pages) and, provided every record carries an identifier,
when the upstream keeps repeating the last page past the true end (stopping
via duplicate-ID detection); the upstream's reported `total` is never read. -/
theorem fetchAll_slice_and_sticky_exact (L : List Row) (q : QueryConfig) (jitter : Nat → ℚ)
    (hnd : (pageIds L).Nodup) (hids : ∀ r ∈ L, (truthyId r).isSome) :
    fetchAllWithResume [] q none (sliceFetch L (limitOf q)) jitter 8 (L.length + 4) =
      some (FetchOutcome.ok L []) ∧
    (L ≠ [] →
      fetchAllWithResume [] q none (stickyFetch L (limitOf q)) jitter 8 (L.length + 4) =
        some (FetchOutcome.ok L [])) := by
  have hlim : 1 ≤ limitOf q := by
    unfold limitOf
    cases q.params.limit with
    | none => norm_num
    | some n =>
        by_cases hn : n = 0
        · simp [hn]
        · simp [hn]
          omega
  constructor
  · have h := fetchLoop_slice L (limitOf q) 8 jitter hnd hlim (L.length + 4) 0 0
      (by omega) (fun _ => rfl) (by omega)
    simpa [fetchAllWithResume, DataCache.get, cacheFind] using h
  · intro hL
    have h := fetchLoop_sticky L (limitOf q) 8 jitter hnd hlim hids hL (L.length + 4) 0 0
      (by omega) (fun _ => rfl)
    simpa [fetchAllWithResume, DataCache.get, cacheFind] using h

theorem fetchAll_slice_and_sticky_exact_witness :
    ((pageIds [cexRowA, cexRowB]).Nodup ∧
      ∀ r ∈ [cexRowA, cexRowB], (truthyId r).isSome) ∧
    (fetchAllWithResume [] cexQLim1 none (sliceFetch [cexRowA, cexRowB] (limitOf cexQLim1))
        (fun _ => 0) 8 ([cexRowA, cexRowB].length + 4) =
        some (FetchOutcome.ok [cexRowA, cexRowB] []) ∧
      ([cexRowA, cexRowB] ≠ [] →
        fetchAllWithResume [] cexQLim1 none (stickyFetch [cexRowA, cexRowB] (limitOf cexQLim1))
          (fun _ => 0) 8 ([cexRowA, cexRowB].length + 4) =
          some (FetchOutcome.ok [cexRowA, cexRowB] []))) :=
  ⟨⟨by decide, by decide⟩,
    fetchAll_slice_and_sticky_exact [cexRowA, cexRowB] cexQLim1 (fun _ => 0)
      (by decide) (by decide)⟩

/-- C6 (counterexample): when every page request fails persistently, the
fetcher performs its 9 attempts (initial try plus `max_retries = 8` retries)
with the capped doubling backoff, then breaks out of the loop and returns a
normal `ok` result carrying the empty accumulation — it does not raise: the
outcome is `FetchOutcome.ok`, never `FetchOutcome.err`. -/
theorem fetch_retry_exhaustion_cex :
    fetchAllWithResume [] qNoFilter none (fun _ => none) (fun _ => 0) 8 10 =
      some (FetchOutcome.ok [] ((List.range 9).map (fun k => 2 ^ (min k 6) + (0 : ℚ)))) := rfl

/-- C6 (amended): under persistent failure the fetcher sleeps the delays
`2 ^ min(k, 6) + jitter k` for `k = 0 … 8` — base delay doubling per attempt,
capped at `2^6`, plus the random jitter — and after exceeding the retry
budget it aborts pagination and returns the accumulated records (here: none)
as a normal, non-error return value. -/
theorem fetch_retry_exhaustion_returns (q : QueryConfig) (jitter : Nat → ℚ) :
    fetchAllWithResume [] q none (fun _ => none) jitter 8 10 =
      some (FetchOutcome.ok [] ((List.range 9).map (fun k => 2 ^ (min k 6) + jitter k))) := rfl

theorem cacheFind_filter_ne (cache : Cache) (k k' : String) (h : k ≠ k') :
    cacheFind (cache.filter (fun p => p.1 ≠ k')) k = cacheFind cache k := by
  simp only [ne_eq, decide_not]
  induction cache with
  | nil => rfl
  | cons hd tl ih =>
      obtain ⟨k0, e0⟩ := hd
      rcases eq_or_ne k0 k' with hk | hk
      · subst hk
        have hne : ¬(k0 = k) := fun hc => h (hc ▸ rfl)
        simp [List.filter_cons, cacheFind, hne, ih]
      · rcases eq_or_ne k0 k with hk0 | hk0
        · subst hk0
          simp [List.filter_cons, cacheFind, hk]
        · simp [List.filter_cons, cacheFind, hk, hk0, ih]

/-- C9: `put(q, R)` followed by `get(q)` with the identical query is an
exact-match cache hit and returns the stored records verbatim. -/
theorem cache_put_get_exact (cache : Cache) (q : QueryConfig) (R : List Row) :
    DataCache.get (DataCache.put cache q R) q = some R := by
  simp [DataCache.get, DataCache.put, cacheIdOf, cacheFind, canReuseData]

/-- C1 (counterexample): caching records under the date-range filter `F1` and
then requesting `F2 = F1 + ";severity==critical"` — a strict field-equality
restriction of `F1` with the same date range — returns `none` (a cache miss),
not the `F2`-subset of the cached records: the lookup key hashes the full
requested params, so the requested filter never finds the `F1` entry.  The
record satisfies `F2`'s extra clause, so the claimed result would be the
nonempty list itself. -/
theorem cache_subset_get_cex :
    DataCache.get (DataCache.put [] cexQ1 cexRecs) cexQ2 = none ∧
    subsetData cexRecs cexF2 = cexRecs ∧ cexRecs ≠ [] := by
  refine ⟨?_, ?_, ?_⟩ <;> decide

/-- C1 (amended): a `put` under one cache key is invisible to a `get` whose
query maps to a different cache key — any request whose serialised params
differ from every cached entry's falls through to "no match" (`get` behaves as
on the cache without that entry); in particular the subset path never serves a
request whose filter differs from the cached one, and never a wrong subset. -/
theorem cache_get_put_other_key (cache : Cache) (q1 q2 : QueryConfig)
    (R : List Row) (h : cacheIdOf q1 ≠ cacheIdOf q2) :
    DataCache.get (DataCache.put cache q1 R) q2 = DataCache.get cache q2 := by
  simp only [DataCache.get, DataCache.put, cacheIdOf] at h ⊢
  simp only [cacheFind]
  rw [if_neg h, cacheFind_filter_ne _ _ _ (fun hc => h hc.symm)]

theorem cache_get_put_other_key_witness :
    cacheIdOf cexQ1 ≠ cacheIdOf cexQ2 ∧
    DataCache.get (DataCache.put [] cexQ1 cexRecs) cexQ2 = DataCache.get [] cexQ2 :=
  ⟨by decide, cache_get_put_other_key [] cexQ1 cexQ2 cexRecs (by decide)⟩

/-- C3: evaluating the code at the failing input.  `_is_subset_filter` with an
empty cached filter and the nonempty requested filter `"severity==critical"`
returns `False` — its first guard fires before the (dead) branch that the
code's own comment describes as "if cached filter is empty … it's likely a
subset" — and consequently `get` after caching an unfiltered query for the
same endpoint returns `none` instead of serving the subset locally. -/
theorem empty_cached_filter_rejected :
    isSubsetFilter "" "severity==critical" = false ∧
    canReuseData { filter := none } { filter := some "severity==critical" } = false ∧
    DataCache.get (DataCache.put [] qNoFilter cexRecs) qSevOnly = none := by
  refine ⟨by decide, by decide, by decide⟩

/-- C4 (counterexample): two queries identical except for `offset` (absent
versus `500`) map to different cache keys, and the stored `full_params` of the
offset query contains the offset: `_generate_cache_key` hashes
`query.params.offset` along with the other non-`None` params. -/
theorem cache_key_offset_cex :
    cacheIdOf qOffA ≠ cacheIdOf qOffB ∧
    (generateCacheKey qOffB).fullParams.offset = some 500 := by
  refine ⟨by decide, rfl⟩

/-- C4 (amended): `put` stores the entry under
`endpoint : hash(all non-None params)` — offset included — and the entry's
stored `params` are exactly the query's params, offset intact; caching is
therefore per page, not per fully-fetched filter. -/
theorem cache_put_stores_offset (cache : Cache) (q : QueryConfig) (R : List Row) :
    cacheFind (DataCache.put cache q R) (cacheIdOf q) = some ⟨R, q.params⟩ ∧
    (generateCacheKey q).fullParams.offset = q.params.offset := by
  refine ⟨?_, rfl⟩
  simp [DataCache.put, cacheFind, generateCacheKey]

/-- C10: the transform engine applied to an empty input record list returns
an empty dataset immediately, before the step loop runs — the equation holds
for every step list and auxiliary-dataset map, including steps that reference
columns that do not exist, so no step can fail or raise on empty input. -/
theorem transform_empty_input (transforms : List Transform)
    (additional : Option (List (String × List Row))) :
    DataTransformer.transform [] transforms additional = Except.ok emptyDF := rfl

/-- C5 (counterexample): a pipeline whose only step is a join with the
declared key column `"missing_col"` absent from the left dataset completes
successfully and passes the dataset through unchanged — `_apply_join` logs
the error and `return df`s instead of raising, so the engine silently
continues past the failing step. -/
theorem transform_join_missing_key_cex :
    DataTransformer.transform cexJoinData [{ join := some cexJoinCfg }] (some cexAux) =
      Except.ok ⟨["a"], cexJoinData⟩ := rfl

/-- C5 (amended): a join step whose declared key column is absent from the
left dataset does not abort the pipeline: `_apply_join` returns the left
dataset unchanged and `transform` completes with a normal result. -/
theorem transform_join_missing_key_silent (data : List Row) (cfg : JoinTransform)
    (ad : List (String × List Row)) (c : String) (hne : data ≠ [])
    (hmem : c ∈ cfg.left_on) (hmiss : c ∉ (dfOfRecords data).cols) :
    DataTransformer.transform data [{ join := some cfg }] (some ad) =
      Except.ok (finalCleanup (dfOfRecords data)) := by
  have hall : cfg.left_on.all (fun x => decide (x ∈ (dfOfRecords data).cols)) = false := by
    rw [Bool.eq_false_iff]
    intro htrue
    exact hmiss (by simpa using List.all_eq_true.mp htrue c hmem)
  have hjoin : applyJoin (dfOfRecords data) cfg ad = Except.ok (dfOfRecords data) := by
    unfold applyJoin
    cases hl : lookupAux ad cfg.right with
    | none => rfl
    | some rs => simp [hall]
  have hne2 : data.isEmpty = false := by
    cases data with
    | nil => exact absurd rfl hne
    | cons a l => rfl
  unfold DataTransformer.transform
  simp [hne2, transformGo, hjoin]

theorem transform_join_missing_key_silent_witness :
    (cexJoinData ≠ [] ∧ "missing_col" ∈ cexJoinCfg.left_on ∧
      "missing_col" ∉ (dfOfRecords cexJoinData).cols) ∧
    DataTransformer.transform cexJoinData [{ join := some cexJoinCfg }] (some cexAux) =
      Except.ok (finalCleanup (dfOfRecords cexJoinData)) :=
  ⟨⟨by decide, by decide, by decide⟩,
    transform_join_missing_key_silent cexJoinData cexJoinCfg cexAux "missing_col"
      (by decide) (by decide) (by decide)⟩

/-! ### Stable-sort lemmas -/

